import Mathlib

/-!
Verification of the forecast-decoding and temporal-navigation core of the
soaringmeteo frontend.

The development shallowly embeds two source files:
* `Forecast.ts` — the decoder producing `LocationForecasts` / `DayForecasts` /
  `DetailedForecast` from compact wire records, and the temporal index
  (`hourOffsetSinceFirstTimeStep`, `offsetAndDates`, `atHourOffset`);
* `PeriodSelector.tsx` — the day-grouping of period selectors
  (`periodSelectorsByDay`), the full-day labelling rule, and the clamped
  offset navigation of the `PeriodSelectors` component.

JavaScript numbers on the wire are modelled as `ℚ` (the decoded quantities are
produced by exact divisions by 10 and 100), `Date` values as a timestamp in
milliseconds together with the value of `getDay()`, and JavaScript `undefined`
as `Option.none`.
-/

/-- A JavaScript `Date`: `time` is `getTime()` (milliseconds since epoch),
`day` is `getDay()` (day of week, 0 = Sunday .. 6 = Saturday). -/
structure JSDate where
  time : Int
  day : Nat
deriving DecidableEq, Repr

/-- JavaScript `Math.round (n / d)` for integers `n` and a positive integer
divisor `d`: rounding to the nearest integer with halves rounded up
(towards `+∞`).  `Int` division `/` is Euclidean division, which agrees with
floor division for the positive divisor `2 * d`. -/
def jsRound (n d : Int) : Int :=
  (2 * n + d) / (2 * d)

/-- Structure `Wind` (source: `Forecast.ts`): wind components in km/h. -/
structure Wind where
  u : ℚ
  v : ℚ
deriving DecidableEq, Repr

/-- Cumulus clouds bottom and top (m AGL), the optional payload of
`DetailedBoundaryLayer.cumulusClouds`. -/
structure CumulusClouds where
  bottom : ℚ
  top : ℚ
deriving DecidableEq, Repr

/-- Structure `DetailedBoundaryLayer` (source: `Forecast.ts`). -/
structure DetailedBoundaryLayer where
  depth : ℚ
  wind : Wind
  soaringLayerDepth : ℚ
  cumulusClouds : Option CumulusClouds
deriving DecidableEq, Repr

/-- Structure `DetailedSurface` (source: `Forecast.ts`). -/
structure DetailedSurface where
  temperature : ℚ
  dewPoint : ℚ
  wind : Wind
deriving DecidableEq, Repr

/-- Structure `DetailedRain` (source: `Forecast.ts`). -/
structure DetailedRain where
  convective : ℚ
  total : ℚ
deriving DecidableEq, Repr

/-- Structure `AboveGround` (source: `Forecast.ts`): variables at some elevation. -/
structure AboveGround where
  u : ℚ
  v : ℚ
  elevation : ℚ
  temperature : ℚ
  dewPoint : ℚ
  cloudCover : ℚ
deriving DecidableEq, Repr

/-- Structure `DetailedWinds` (source: `Forecast.ts`): winds at the five named reference
levels (`soaringLayerTop`, `_300MAGL`, `_2000MAMSL`, `_3000MAMSL`,
`_4000MAMSL`). -/
structure DetailedWinds where
  soaringLayerTop : Wind
  w300MAGL : Wind
  w2000MAMSL : Wind
  w3000MAMSL : Wind
  w4000MAMSL : Wind
deriving DecidableEq, Repr

/-- Structure `DetailedForecast` (source: `Forecast.ts`): one time-stamped forecast
instant, as built by the `DetailedForecast` constructor. -/
structure DetailedForecast where
  time : JSDate
  xcPotential : ℚ
  xcPotentialFlatlands : ℚ
  thermalVelocity : ℚ
  boundaryLayer : DetailedBoundaryLayer
  surface : DetailedSurface
  cloudCover : ℚ
  rain : DetailedRain
  meanSeaLevelPressure : ℚ
  isothermZero : Option ℚ
  aboveGround : List AboveGround
  winds : DetailedWinds
deriving DecidableEq, Repr

/-- Structure `DayForecasts` (source: `Forecast.ts`). -/
structure DayForecasts where
  thunderstormRisk : ℚ
  forecasts : List DetailedForecast
deriving DecidableEq, Repr

/-- Structure `LocationForecasts` (source: `Forecast.ts`).  `firstTimeStep` is the field
of the owning run's `ForecastMetadata` that the temporal-index methods read
(`this.metadata.firstTimeStep`). -/
structure LocationForecasts where
  elevation : ℚ
  dayForecasts : List DayForecasts
  firstTimeStep : JSDate
deriving DecidableEq, Repr

/-- Method `DetailedForecast.hourOffsetSinceFirstTimeStep` (source: `Forecast.ts`):
`Math.round((this.time.getTime() - firstTimeStep.getTime()) / 3600000)`. -/
def DetailedForecast.hourOffsetSinceFirstTimeStep (f : DetailedForecast)
    (firstTimeStep : JSDate) : Int :=
  jsRound (f.time.time - firstTimeStep.time) 3600000

/-- The flattening `this.dayForecasts.map(_ => _.forecasts).reduce((x, y) =>
x.concat(y), [])` shared by `offsetAndDates` and `atHourOffset`
(source: `Forecast.ts`). -/
def LocationForecasts.flatForecasts (lf : LocationForecasts) :
    List DetailedForecast :=
  (lf.dayForecasts.map DayForecasts.forecasts).flatten

/-- Method `LocationForecasts.offsetAndDates` (source: `Forecast.ts`): hour offset and
date of each forecast, in flattened chronological order. -/
def LocationForecasts.offsetAndDates (lf : LocationForecasts) :
    List (Int × JSDate) :=
  lf.flatForecasts.map fun forecast =>
    (forecast.hourOffsetSinceFirstTimeStep lf.firstTimeStep, forecast.time)

/-- Method `LocationForecasts.atHourOffset` (source: `Forecast.ts`): first flattened
forecast whose computed hour offset equals `hourOffset`, `undefined`
(modelled as `none`) otherwise. -/
def LocationForecasts.atHourOffset (lf : LocationForecasts) (hourOffset : Int) :
    Option DetailedForecast :=
  lf.flatForecasts.find? fun forecast =>
    forecast.hourOffsetSinceFirstTimeStep lf.firstTimeStep = hourOffset

/-!
Day grouping and period selectors (source: `PeriodSelector.tsx`).

A period selector is an opaque renderable (`HTMLElement`); the grouping code
only moves it around, so it is modelled by a type parameter `α`.  A triple
`(selector, hourOffset, date)` is an element of `flatPeriodSelectors()`, and a
bucket `(periods, date)` is an element of `periodSelectorsByDay()`.
-/

/-- One day bucket of `periodSelectorsByDay`: the list of
`(selector, hourOffset)` pairs of the day, paired with the date of the first
period of the day. -/
abbrev Bucket (α : Type) := List (α × Int) × JSDate

/-- The statement `result[result.length - 1][0].push(p)` (source: `PeriodSelector.tsx`,
`periodSelectorsByDay`): append `p` to the last bucket.  On an empty bucket
list the JavaScript statement would throw; the grouping loop only reaches it
with a non-empty `result`, and the model returns `[]` in that dead case. -/
def pushLast {α : Type} : List (Bucket α) → α × Int → List (Bucket α)
  | [], _ => []
  | [b], p => [(b.1 ++ [p], b.2)]
  | b :: b2 :: bs, p => b :: pushLast (b2 :: bs) p

/-- One iteration of the `forEach` loop of `periodSelectorsByDay`
(source: `PeriodSelector.tsx`): state is the bucket list built so far and
`lastDay` (`null` initially, modelled as `none`). -/
def groupStep {α : Type} (st : List (Bucket α) × Option Nat)
    (x : α × Int × JSDate) : List (Bucket α) × Option Nat :=
  let buckets :=
    if st.2 = some x.2.2.day then pushLast st.1 (x.1, x.2.1)
    else st.1 ++ [([(x.1, x.2.1)], x.2.2)]
  (buckets, some x.2.2.day)

/-- Function `periodSelectorsByDay` (source: `PeriodSelector.tsx`): group the ordered
`(selector, hourOffset, date)` triples into day buckets, starting a new bucket
exactly when the date's `getDay()` differs from the previous triple's. -/
def periodSelectorsByDay {α : Type} (xs : List (α × Int × JSDate)) :
    List (Bucket α) :=
  (xs.foldl groupStep ([], none)).1

/-- The content rendered inside a day element by `periodSelectors`
(source: `PeriodSelector.tsx`): either the human-readable date label
(`date.toLocaleDateString(...)`, abstracted as the date it formats) or the
blank placeholder `'\xa0'`. -/
inductive DayLabel where
  | dateLabel (date : JSDate)
  | blank
deriving DecidableEq, Repr

/-- The label conditional of `periodSelectors` (source: `PeriodSelector.tsx`):
`periods.length === periodsPerDay ? date.toLocaleDateString(...) : '\xa0'`. -/
def dayLabelOf {α : Type} (periods : List (α × Int)) (date : JSDate)
    (periodsPerDay : Nat) : DayLabel :=
  if periods.length = periodsPerDay then DayLabel.dateLabel date
  else DayLabel.blank

/-- The labels of all day buckets, in order (the labelling part of
`periodSelectors`, source: `PeriodSelector.tsx`). -/
def dayLabels {α : Type} (xs : List (α × Int × JSDate)) (periodsPerDay : Nat) :
    List DayLabel :=
  (periodSelectorsByDay xs).map fun b => dayLabelOf b.1 b.2 periodsPerDay

/-- The hour offset passed to `props.onClick` by a day label's `onClick`
(source: `PeriodSelector.tsx`): `periods[1][1]`.  Out-of-bounds indexing
yields no valid offset (JavaScript: `periods[1]` is `undefined` and the
subsequent `[1]` access throws), modelled as `none`. -/
def dayClickOffset {α : Type} (periods : List (α × Int)) : Option Int :=
  (periods[1]?).map Prod.snd

/-!
Offset navigation (source: `PeriodSelector.tsx`, `PeriodSelectors` component):
the four buttons' `onClick` handlers.
-/

/-- The four navigation intents of the `PeriodSelectors` buttons. -/
inductive NavIntent where
  | previousDay
  | previousPeriod
  | nextPeriod
  | nextDay
deriving DecidableEq, Repr

/-- The hour delta of each navigation intent (−24, −3, +3, +24). -/
def NavIntent.delta : NavIntent → Int
  | .previousDay => -24
  | .previousPeriod => -3
  | .nextPeriod => 3
  | .nextDay => 24

/-- The offset computed by the corresponding button's `onClick`
(source: `PeriodSelector.tsx`): `Math.max(hourOffset - 24, 3)`,
`Math.max(hourOffset - 3, 3)`, `Math.min(hourOffset + 3, latest)`,
`Math.min(hourOffset + 24, latest)`, where `latest` is
`props.forecastMetadata.latest`. -/
def nextOffset (current : Int) (intent : NavIntent) (latest : Int) : Int :=
  match intent with
  | .previousDay => max (current - 24) 3
  | .previousPeriod => max (current - 3) 3
  | .nextPeriod => min (current + 3) latest
  | .nextDay => min (current + 24) latest

/-- Clamping: `clamp x lo hi` is `x` clamped to the interval `[lo, hi]`. -/
def clamp (x lo hi : Int) : Int :=
  max lo (min x hi)

/-!
Decoding of raw wire records.

The wire shape (`LocationForecastsData`, `DayForecastsData`,
`DetailedForecastData` in `Forecast.ts`) declares which fields are required
and which are optional (`bl.c?`, `iso?`, and — by explicit fallback in the
constructor — `xcf`).  A raw record models untrusted input: every field may be
missing or malformed (`none`).  The field transformations below are those of
the `LocationForecasts` / `DayForecasts` / `DetailedForecast` constructors;
the presence validation itself is not part of the excerpt.
-/

/-- A decode failure for a required field that is missing or malformed. -/
inductive DecodeError where
  | missingField
deriving DecidableEq, Repr

/-- Modelled from the spec: reading one required field of a raw record —
"malformed/missing required numeric fields are a decode error (`DecodeError`);
the decoder does not synthesize values for required fields". -/
def req {α : Type} : Option α → Except DecodeError α
  | some a => Except.ok a
  | none => Except.error DecodeError.missingField

/-- Decode every element of a list, failing on the first element that fails. -/
def mapDecode {α β : Type} (f : α → Except DecodeError β) :
    List α → Except DecodeError (List β)
  | [] => Except.ok []
  | x :: xs =>
    match f x with
    | Except.error e => Except.error e
    | Except.ok y =>
      match mapDecode f xs with
      | Except.error e => Except.error e
      | Except.ok ys => Except.ok (y :: ys)

/-- One entry of the above-ground profile array `p`
(source: `Forecast.ts`, `DetailedForecastData`): all fields required. -/
structure AboveGroundEntryData where
  h : ℚ
  t : ℚ
  dt : ℚ
  u : ℚ
  v : ℚ
  c : ℚ
deriving DecidableEq, Repr

/-- The boundary-layer block `bl` (source: `Forecast.ts`,
`DetailedForecastData`): depth `h`, wind `u`/`v` required; cumulus cloud
bottom/top pair `c` optional. -/
structure BoundaryLayerData where
  h : ℚ
  u : ℚ
  v : ℚ
  c : Option (ℚ × ℚ)
deriving DecidableEq, Repr

/-- The above-ground decoding of the `DetailedForecast` constructor
(source: `Forecast.ts`): `data.p.filter(e => e.h > elevation).map(...)` —
keep exactly the entries strictly above the terrain elevation, in order,
scaling cloud cover by 1/100. -/
def decodeAboveGround (p : List AboveGroundEntryData) (elevation : ℚ) :
    List AboveGround :=
  (p.filter fun e => elevation < e.h).map fun entry =>
    { elevation := entry.h
      u := entry.u
      v := entry.v
      temperature := entry.t
      dewPoint := entry.dt
      cloudCover := entry.c / 100 }

/-- The boundary-layer decoding of the `DetailedForecast` constructor
(source: `Forecast.ts`): soaring-layer depth is the cumulus cloud bottom
`bl.c[0]` when the pair is present, the boundary-layer depth `bl.h`
otherwise; `cumulusClouds` is present iff `bl.c` is. -/
def decodeBoundaryLayer (bl : BoundaryLayerData) : DetailedBoundaryLayer :=
  { depth := bl.h
    soaringLayerDepth :=
      match bl.c with
      | some c => c.1
      | none => bl.h
    wind := { u := bl.u, v := bl.v }
    cumulusClouds :=
      match bl.c with
      | some c => some { bottom := c.1, top := c.2 }
      | none => none }

/-- A raw wind entry of the 5-element array `w`: both components required. -/
structure RawWindEntry where
  u : Option ℚ
  v : Option ℚ
deriving DecidableEq, Repr

/-- A raw above-ground profile entry: all six fields required. -/
structure RawAboveGroundEntry where
  h : Option ℚ
  t : Option ℚ
  dt : Option ℚ
  u : Option ℚ
  v : Option ℚ
  c : Option ℚ
deriving DecidableEq, Repr

/-- The raw boundary-layer block: `h`, `u`, `v` required, `c` optional. -/
structure RawBoundaryLayer where
  h : Option ℚ
  u : Option ℚ
  v : Option ℚ
  c : Option (ℚ × ℚ)
deriving DecidableEq, Repr

/-- The raw surface block `s`: all four fields required. -/
structure RawSurface where
  t : Option ℚ
  dt : Option ℚ
  u : Option ℚ
  v : Option ℚ
deriving DecidableEq, Repr

/-- The raw rain block `r`: both fields required. -/
structure RawRain where
  t : Option ℚ
  c : Option ℚ
deriving DecidableEq, Repr

/-- A raw hour-record (`DetailedForecastData` wire shape, `Forecast.ts`).
`t` is the forecast time, already parsed from its ISO-8601 string (`none`
when missing or unparseable); `xcf`, `iso` and `bl.c` are the optional
fields; every other field is required. -/
structure RawDetailedForecastData where
  t : Option JSDate
  xc : Option ℚ
  xcf : Option ℚ
  bl : Option RawBoundaryLayer
  v : Option ℚ
  p : Option (List RawAboveGroundEntry)
  s : Option RawSurface
  iso : Option ℚ
  r : Option RawRain
  mslet : Option ℚ
  c : Option ℚ
  w : Option (List RawWindEntry)
deriving DecidableEq, Repr

/-- A raw day-record (`DayForecastsData` wire shape, `Forecast.ts`). -/
structure RawDayForecastsData where
  th : Option ℚ
  h : Option (List RawDetailedForecastData)
deriving DecidableEq, Repr

/-- A raw location record (`LocationForecastsData` wire shape,
`Forecast.ts`). -/
structure RawLocationForecastsData where
  h : Option ℚ
  d : Option (List RawDayForecastsData)
deriving DecidableEq, Repr

/-- Decode one wind entry of `w`. -/
def decodeWindEntry (raw : RawWindEntry) : Except DecodeError Wind := do
  let u ← req raw.u
  let v ← req raw.v
  Except.ok { u := u, v := v }

/-- Decode one above-ground profile entry. -/
def decodeAboveGroundEntry (raw : RawAboveGroundEntry) :
    Except DecodeError AboveGroundEntryData := do
  let h ← req raw.h
  let t ← req raw.t
  let dt ← req raw.dt
  let u ← req raw.u
  let v ← req raw.v
  let c ← req raw.c
  Except.ok { h := h, t := t, dt := dt, u := u, v := v, c := c }

/-- The fixed 5-tuple of winds read from `data.w[0] .. data.w[4]`
(source: `Forecast.ts`); fewer than five decoded entries is a malformed
record. -/
def decodeWinds (ws : List Wind) : Except DecodeError DetailedWinds :=
  match ws with
  | w0 :: w1 :: w2 :: w3 :: w4 :: _ =>
    Except.ok
      { soaringLayerTop := w0
        w300MAGL := w1
        w2000MAMSL := w2
        w3000MAMSL := w3
        w4000MAMSL := w4 }
  | _ => Except.error DecodeError.missingField

/-- Decode a raw hour-record into a `DetailedForecast`.  Modelled from the
spec: the presence checks for required fields (`DecodeError` on a missing or
malformed one) are not part of the excerpt; every value derivation is that of
the `DetailedForecast` constructor (source: `Forecast.ts`): thermal velocity
`v / 10`, cloud cover `c / 100`, `xcf` falling back to `0`, the
boundary-layer and above-ground rules of `decodeBoundaryLayer` and
`decodeAboveGround`, `iso` passed through. -/
def decodeDetailedForecast (raw : RawDetailedForecastData) (elevation : ℚ) :
    Except DecodeError DetailedForecast := do
  let t ← req raw.t
  let xc ← req raw.xc
  let blRaw ← req raw.bl
  let blh ← req blRaw.h
  let blu ← req blRaw.u
  let blv ← req blRaw.v
  let v ← req raw.v
  let pRaw ← req raw.p
  let p ← mapDecode decodeAboveGroundEntry pRaw
  let sRaw ← req raw.s
  let st ← req sRaw.t
  let sdt ← req sRaw.dt
  let su ← req sRaw.u
  let sv ← req sRaw.v
  let rRaw ← req raw.r
  let rt ← req rRaw.t
  let rc ← req rRaw.c
  let mslet ← req raw.mslet
  let c ← req raw.c
  let wRaw ← req raw.w
  let ws ← mapDecode decodeWindEntry wRaw
  let winds ← decodeWinds ws
  Except.ok
    { time := t
      xcPotential := xc
      xcPotentialFlatlands :=
        match raw.xcf with
        | some xcf => xcf
        | none => 0
      thermalVelocity := v / 10
      boundaryLayer :=
        decodeBoundaryLayer { h := blh, u := blu, v := blv, c := blRaw.c }
      surface := { temperature := st, dewPoint := sdt, wind := { u := su, v := sv } }
      cloudCover := c / 100
      rain := { convective := rc, total := rt }
      meanSeaLevelPressure := mslet
      isothermZero := raw.iso
      aboveGround := decodeAboveGround p elevation
      winds := winds }

/-- Decode a raw day-record (`DayForecasts` constructor over raw input). -/
def decodeDayForecasts (raw : RawDayForecastsData) (elevation : ℚ) :
    Except DecodeError DayForecasts := do
  let th ← req raw.th
  let hRaw ← req raw.h
  let forecasts ← mapDecode (fun d => decodeDetailedForecast d elevation) hRaw
  Except.ok { thunderstormRisk := th, forecasts := forecasts }

/-- Decode a raw location record (`LocationForecasts` constructor over raw
input); `firstTimeStep` comes from the run's metadata. -/
def decodeLocationForecasts (raw : RawLocationForecastsData)
    (firstTimeStep : JSDate) : Except DecodeError LocationForecasts := do
  let elevation ← req raw.h
  let dRaw ← req raw.d
  let days ← mapDecode (fun d => decodeDayForecasts d elevation) dRaw
  Except.ok
    { elevation := elevation
      dayForecasts := days
      firstTimeStep := firstTimeStep }

/-- All required fields of a raw wind entry are present. -/
def rawWindOk (raw : RawWindEntry) : Bool :=
  raw.u.isSome && raw.v.isSome

/-- All required fields of a raw above-ground entry are present. -/
def rawAboveGroundOk (raw : RawAboveGroundEntry) : Bool :=
  raw.h.isSome && raw.t.isSome && raw.dt.isSome && raw.u.isSome &&
    raw.v.isSome && raw.c.isSome

/-- All required fields of a raw hour-record are present (the optional
`xcf`, `iso` and `bl.c` are not constrained), and the wind array has the
five required entries. -/
def rawDetailedOk (raw : RawDetailedForecastData) : Bool :=
  raw.t.isSome && raw.xc.isSome &&
    (match raw.bl with
     | some bl => bl.h.isSome && bl.u.isSome && bl.v.isSome
     | none => false) &&
    raw.v.isSome &&
    (match raw.p with
     | some p => p.all rawAboveGroundOk
     | none => false) &&
    (match raw.s with
     | some s => s.t.isSome && s.dt.isSome && s.u.isSome && s.v.isSome
     | none => false) &&
    (match raw.r with
     | some r => r.t.isSome && r.c.isSome
     | none => false) &&
    raw.mslet.isSome && raw.c.isSome &&
    (match raw.w with
     | some w => w.all rawWindOk && 5 ≤ w.length
     | none => false)

/-- All required fields of a raw day-record are present. -/
def rawDayOk (raw : RawDayForecastsData) : Bool :=
  raw.th.isSome &&
    (match raw.h with
     | some h => h.all rawDetailedOk
     | none => false)

/-- All required fields of a raw location record are present. -/
def rawLocationOk (raw : RawLocationForecastsData) : Bool :=
  raw.h.isSome &&
    (match raw.d with
     | some d => d.all rawDayOk
     | none => false)

/-!
Sample values used to evaluate the definitions on concrete inputs.
-/

/-- A zero wind sample. -/
def sampleWind : Wind := { u := 0, v := 0 }

/-- A `DetailedForecast` at time `t` (milliseconds) with neutral values in
every other field; only the time matters to the temporal index. -/
def sampleDetailedForecast (t : Int) : DetailedForecast :=
  { time := { time := t, day := 0 }
    xcPotential := 0
    xcPotentialFlatlands := 0
    thermalVelocity := 0
    boundaryLayer :=
      { depth := 0, wind := sampleWind, soaringLayerDepth := 0
        cumulusClouds := none }
    surface := { temperature := 0, dewPoint := 0, wind := sampleWind }
    cloudCover := 0
    rain := { convective := 0, total := 0 }
    meanSeaLevelPressure := 0
    isothermZero := none
    aboveGround := []
    winds :=
      { soaringLayerTop := sampleWind, w300MAGL := sampleWind
        w2000MAMSL := sampleWind, w3000MAMSL := sampleWind
        w4000MAMSL := sampleWind } }

/-- A one-day `LocationForecasts` whose forecasts sit at the given
timestamps (milliseconds), with first time step at the epoch. -/
def sampleLocation (ts : List Int) : LocationForecasts :=
  { elevation := 0
    dayForecasts := [{ thunderstormRisk := 0
                       forecasts := ts.map sampleDetailedForecast }]
    firstTimeStep := { time := 0, day := 0 } }

/-- An above-ground profile entry at elevation `h` with neutral values in the
other fields. -/
def profileEntry (h : ℚ) : AboveGroundEntryData :=
  { h := h, t := 0, dt := 0, u := 0, v := 0, c := 0 }

/-!
Claim theorems.
-/

/-- Claim C3: for every current offset in `[3, latest]` and every navigation
intent with delta in `{-24, -3, +3, +24}`, the offset computed by the
corresponding button equals `clamp (current + delta) 3 latest`; in particular
`nextOffset 3 previousPeriod = 3`, `nextOffset 180 nextDay = 180` with
`latest = 180`, and `nextOffset 10 nextPeriod = 13`. -/
theorem nextOffset_clamps (current latest : Int) (intent : NavIntent)
    (h3 : 3 ≤ current) (hl : current ≤ latest) :
    nextOffset current intent latest =
      clamp (current + intent.delta) 3 latest ∧
    nextOffset 3 NavIntent.previousPeriod 180 = 3 ∧
    nextOffset 180 NavIntent.nextDay 180 = 180 ∧
    (∀ l : Int, 13 ≤ l → nextOffset 10 NavIntent.nextPeriod l = 13) := by
  refine ⟨?_, by decide, by decide, fun l hl13 => ?_⟩
  · cases intent <;>
      simp only [nextOffset, clamp, NavIntent.delta] <;> omega
  · simp only [nextOffset]
    omega

/-- Witness for C3 at `current = 10`, `intent = nextPeriod`, `latest = 20`. -/
theorem nextOffset_clamps_witness :
    nextOffset 10 NavIntent.nextPeriod 20 =
      clamp (10 + NavIntent.delta NavIntent.nextPeriod) 3 20 :=
  (nextOffset_clamps 10 20 NavIntent.nextPeriod (by decide) (by decide)).1

/-- The value `jsRound n d` is the integer nearest to `n / d` (halves towards `+∞`),
i.e. Mathlib's `round` of the exact rational quotient. -/
theorem jsRound_eq_round (n : Int) (d : Nat) (hd : 0 < d) :
    jsRound n d = round ((n : ℚ) / (d : ℚ)) := by
  have hd0 : ((d : ℚ)) ≠ 0 := by
    exact_mod_cast Nat.pos_iff_ne_zero.mp hd
  have key : (n : ℚ) / (d : ℚ) + 1 / 2 =
      ((2 * n + d : ℤ) : ℚ) / (((2 * d : ℕ) : ℤ) : ℚ) := by
    push_cast
    field_simp
    ring
  rw [round_eq, key]
  have := Rat.floor_intCast_div_natCast (2 * n + d) (2 * d)
  rw [jsRound]
  push_cast at this ⊢
  omega

/-- Claim C7: `hourOffsetSinceFirstTimeStep` equals the integer
`round ((instant - firstTimeStep) / 1 hour)` — rounding to the nearest hour,
not truncation (at 1.6 hours past the first time step the offset is `2`,
where truncation would give `1`). -/
theorem hourOffset_eq_round (f : DetailedForecast) (firstTimeStep : JSDate) :
    f.hourOffsetSinceFirstTimeStep firstTimeStep =
      round (((f.time.time - firstTimeStep.time : Int) : ℚ) / 3600000) ∧
    (sampleDetailedForecast 5760000).hourOffsetSinceFirstTimeStep
      { time := 0, day := 0 } = 2 := by
  constructor
  · have h := jsRound_eq_round (f.time.time - firstTimeStep.time) 3600000
      (by norm_num)
    rw [DetailedForecast.hourOffsetSinceFirstTimeStep]
    exact_mod_cast h
  · decide

/-- Claim C8: the decoded above-ground sequence consists of exactly the
profile entries whose elevation strictly exceeds the terrain elevation, in
their original order; every decoded sample satisfies
`elevation > locationElevation`; terrain `500` with profile elevations
`[300, 600, 1200]` decodes to exactly `[600, 1200]` in that order. -/
theorem aboveGround_filter :
    (∀ (p : List AboveGroundEntryData) (elevation : ℚ) (s : AboveGround),
      s ∈ decodeAboveGround p elevation → elevation < s.elevation) ∧
    (∀ (p : List AboveGroundEntryData) (elevation : ℚ),
      (decodeAboveGround p elevation).map AboveGround.elevation =
        (p.map AboveGroundEntryData.h).filter fun h => decide (elevation < h)) ∧
    (decodeAboveGround [profileEntry 300, profileEntry 600, profileEntry 1200]
        500).map AboveGround.elevation = [600, 1200] := by
  refine ⟨fun p elevation s hs => ?_, fun p elevation => ?_, by decide⟩
  · simp only [decodeAboveGround, List.mem_map, List.mem_filter,
      decide_eq_true_eq] at hs
    obtain ⟨e, ⟨_, he⟩, rfl⟩ := hs
    exact he
  · simp only [decodeAboveGround, List.map_map, List.filter_map]
    rfl

/-- Witness for C8: the sample at elevation `600` decoded over terrain `500`
is strictly above the terrain. -/
theorem aboveGround_filter_witness :
    (500 : ℚ) <
      AboveGround.elevation
        { elevation := 600, u := 0, v := 0, temperature := 0, dewPoint := 0
          cloudCover := 0 } :=
  aboveGround_filter.1 [profileEntry 600] 500
    { elevation := 600, u := 0, v := 0, temperature := 0, dewPoint := 0
      cloudCover := 0 } (by norm_num [decodeAboveGround, profileEntry])

/-- Claim C9: the decoded boundary layer has `cumulusClouds` defined iff the
raw cloud pair `bl.c` is present, and `soaringLayerDepth` equals the cumulus
cloud bottom `bl.c[0]` when the pair is present and the boundary-layer depth
`bl.h` when it is absent. -/
theorem boundaryLayer_cumulus (bl : BoundaryLayerData) :
    ((decodeBoundaryLayer bl).cumulusClouds.isSome = bl.c.isSome) ∧
    (bl.c = none →
      (decodeBoundaryLayer bl).cumulusClouds = none ∧
      (decodeBoundaryLayer bl).soaringLayerDepth = bl.h) ∧
    (∀ bottom top : ℚ, bl.c = some (bottom, top) →
      (decodeBoundaryLayer bl).cumulusClouds =
        some { bottom := bottom, top := top } ∧
      (decodeBoundaryLayer bl).soaringLayerDepth = bottom) := by
  obtain ⟨h, u, v, c⟩ := bl
  refine ⟨?_, ?_, ?_⟩
  · cases c <;> simp [decodeBoundaryLayer]
  · rintro rfl
    simp [decodeBoundaryLayer]
  · rintro bottom top rfl
    simp [decodeBoundaryLayer]

/-- Witness for C9 with the cloud pair present (`bottom = 800`,
`top = 1200`) over depth `1500`. -/
theorem boundaryLayer_cumulus_witness :
    (decodeBoundaryLayer
        { h := 1500, u := 0, v := 0, c := some (800, 1200) }).cumulusClouds =
      some { bottom := 800, top := 1200 } ∧
    (decodeBoundaryLayer
        { h := 1500, u := 0, v := 0, c := some (800, 1200) }).soaringLayerDepth
      = 800 :=
  (boundaryLayer_cumulus
      { h := 1500, u := 0, v := 0, c := some (800, 1200) }).2.2 800 1200 rfl

/-- Claim C10: clicking a day bucket's label selects the offset of the
bucket's second period (index 1) whatever the day; the access is well defined
exactly when the bucket has at least two periods, and a single-period bucket
(a partial first or last day) yields no valid offset. -/
theorem dayClickOffset_spec {α : Type} :
    (∀ (periods : List (α × Int)) (h : 2 ≤ periods.length),
      dayClickOffset periods = some (periods.get ⟨1, h⟩).2) ∧
    (∀ periods : List (α × Int), periods.length ≤ 1 →
      dayClickOffset periods = none) ∧
    (∀ (xs : List (α × Int × JSDate)) (b : Bucket α),
      b ∈ periodSelectorsByDay xs → b.1.length = 1 →
      dayClickOffset b.1 = none) := by
  refine ⟨fun periods h => ?_, fun periods h => ?_, fun xs b _ hb => ?_⟩
  · match periods, h with
    | a :: b :: rest, _ => simp [dayClickOffset]
  · match periods, h with
    | [], _ => simp [dayClickOffset]
    | [a], _ => simp [dayClickOffset]
  · match b, hb with
    | ⟨[p], d⟩, _ => simp [dayClickOffset]

/-- Witness for C10 on the two-period bucket `[(p0, 5), (p1, 8)]` (selector
identities are numbers here): the click offset is the second period's `8`. -/
theorem dayClickOffset_spec_witness :
    dayClickOffset [((0 : Nat), (5 : Int)), (1, 8)] =
      some ([((0 : Nat), (5 : Int)), (1, 8)].get ⟨1, by decide⟩).2 :=
  dayClickOffset_spec.1 [((0 : Nat), (5 : Int)), (1, 8)] (by decide)

/-- If `find?` returns `some a`, then `a` is the first element satisfying the
predicate: the list splits as `l1 ++ a :: l2` with no hit in `l1`. -/
theorem findSplit_of_find?_eq_some {α : Type} {p : α → Bool} {a : α} :
    ∀ {l : List α}, l.find? p = some a →
      p a = true ∧ ∃ l1 l2, l = l1 ++ a :: l2 ∧ ∀ b ∈ l1, p b = false := by
  intro l
  induction l with
  | nil => intro h; simp at h
  | cons x xs ih =>
    intro h
    by_cases hx : p x = true
    · rw [List.find?_cons_of_pos xs hx] at h
      obtain rfl : x = a := by injection h
      exact ⟨hx, [], xs, rfl, by simp⟩
    · rw [List.find?_cons_of_neg xs hx] at h
      obtain ⟨hpa, l1, l2, rfl, hl1⟩ := ih h
      refine ⟨hpa, x :: l1, l2, rfl, ?_⟩
      intro b hb
      rcases List.mem_cons.mp hb with rfl | hb
      · exact Bool.not_eq_true _ ▸ (by simpa using hx)
      · exact hl1 b hb

/-- Claim C4: `atHourOffset` returns the first flattened `DetailedForecast`
whose computed hour offset equals the query exactly, and `none` when no
forecast has exactly that offset; in particular, when every available offset
is at least `3` (as when the first available offset is `3` and offsets
increase), `atHourOffset 0` finds nothing — there is no nearest-neighbour
fallback. -/
theorem atHourOffset_exact (lf : LocationForecasts) (hourOffset : Int) :
    (lf.atHourOffset hourOffset = none ↔
      ∀ f ∈ lf.flatForecasts,
        f.hourOffsetSinceFirstTimeStep lf.firstTimeStep ≠ hourOffset) ∧
    (∀ f, lf.atHourOffset hourOffset = some f →
      f.hourOffsetSinceFirstTimeStep lf.firstTimeStep = hourOffset ∧
      ∃ l1 l2, lf.flatForecasts = l1 ++ f :: l2 ∧
        ∀ g ∈ l1,
          g.hourOffsetSinceFirstTimeStep lf.firstTimeStep ≠ hourOffset) ∧
    ((∀ f ∈ lf.flatForecasts,
        3 ≤ f.hourOffsetSinceFirstTimeStep lf.firstTimeStep) →
      lf.atHourOffset 0 = none) := by
  refine ⟨?_, fun f hf => ?_, fun hall => ?_⟩
  · rw [LocationForecasts.atHourOffset, List.find?_eq_none]
    simp
  · rw [LocationForecasts.atHourOffset] at hf
    obtain ⟨hpa, l1, l2, hsplit, hl1⟩ := findSplit_of_find?_eq_some hf
    refine ⟨by simpa using hpa, l1, l2, hsplit, fun g hg => ?_⟩
    simpa using hl1 g hg
  · rw [LocationForecasts.atHourOffset, List.find?_eq_none]
    intro f hf
    have := hall f hf
    simp only [decide_eq_true_eq]
    omega

/-- Witness for C4: on a location whose forecasts sit at offsets `3` and `6`
(times 3 h and 6 h past the first time step), `atHourOffset 0` is `none`. -/
theorem atHourOffset_exact_witness :
    (sampleLocation [10800000, 21600000]).atHourOffset 0 = none :=
  (atHourOffset_exact (sampleLocation [10800000, 21600000]) 0).2.2 (by decide)

/-- Rounding `jsRound` is monotone in the numerator for a positive divisor. -/
theorem jsRound_mono {n m : Int} (d : Int) (hd : 0 < d) (h : n ≤ m) :
    jsRound n d ≤ jsRound m d :=
  Int.ediv_le_ediv (by omega) (by omega)

/-- Shifting the numerator by the divisor shifts `jsRound` by one. -/
theorem jsRound_add_divisor (n d : Int) (hd : d ≠ 0) :
    jsRound (n + d) d = jsRound n d + 1 := by
  unfold jsRound
  have h2 : (2 : Int) * (n + d) + d = (2 * n + d) + 1 * (2 * d) := by ring
  rw [h2, Int.add_mul_ediv_right _ _ (by omega : (2 : Int) * d ≠ 0)]

/-- Claim C5 as stated is false: in the location `lfClose`, whose two
flattened forecast times `0` ms and `1` ms are strictly increasing, both
computed hour offsets round to `0`, so `offsetAndDates` is not strictly
increasing in the offset component. -/
theorem offsetAndDates_not_strictMono_of_close_times :
    List.Chain' (fun f g : DetailedForecast => f.time.time < g.time.time)
      (sampleLocation [0, 1]).flatForecasts ∧
    (sampleLocation [0, 1]).offsetAndDates = [(0, { time := 0, day := 0 }), (0, { time := 1, day := 0 })] ∧
    ¬ List.Chain' (fun a b : Int × JSDate => a.1 < b.1)
      (sampleLocation [0, 1]).offsetAndDates := by
  have hflat : (sampleLocation [0, 1]).flatForecasts =
      [sampleDetailedForecast 0, sampleDetailedForecast 1] := by decide
  refine ⟨?_, by decide, ?_⟩
  · rw [hflat]
    exact List.chain'_pair.mpr (by decide)
  · intro h
    rw [show (sampleLocation [0, 1]).offsetAndDates =
      [((0 : Int), ({ time := 0, day := 0 } : JSDate)), (0, { time := 1, day := 0 })] from by decide] at h
    exact absurd (List.chain'_cons.mp h).1 (by decide)

/-- Claim C5, amended: when consecutive flattened forecast times are at least
one hour (3600000 ms) apart — in particular strictly increasing — the
sequence returned by `offsetAndDates` is strictly increasing in both the
hour-offset component and the date component. -/
theorem offsetAndDates_strictMono (lf : LocationForecasts)
    (h : List.Chain'
      (fun f g : DetailedForecast => f.time.time + 3600000 ≤ g.time.time)
      lf.flatForecasts) :
    List.Chain' (fun a b : Int × JSDate => a.1 < b.1 ∧ a.2.time < b.2.time)
      lf.offsetAndDates := by
  rw [LocationForecasts.offsetAndDates, List.chain'_map]
  refine h.imp ?_
  intro f g hfg
  refine ⟨?_, ?_⟩
  case refine_2 =>
    show f.time.time < g.time.time
    omega
  show f.hourOffsetSinceFirstTimeStep lf.firstTimeStep <
    g.hourOffsetSinceFirstTimeStep lf.firstTimeStep
  · have h1 : f.hourOffsetSinceFirstTimeStep lf.firstTimeStep + 1 =
        jsRound (f.time.time - lf.firstTimeStep.time + 3600000) 3600000 := by
      rw [DetailedForecast.hourOffsetSinceFirstTimeStep,
        jsRound_add_divisor _ _ (by norm_num)]
    have h2 : jsRound (f.time.time - lf.firstTimeStep.time + 3600000) 3600000 ≤
        g.hourOffsetSinceFirstTimeStep lf.firstTimeStep := by
      rw [DetailedForecast.hourOffsetSinceFirstTimeStep]
      exact jsRound_mono 3600000 (by norm_num) (by omega)
    omega

/-- Witness for the amended C5: forecasts at times 3 h and 6 h are an hour
apart, so their `offsetAndDates` is strictly increasing. -/
theorem offsetAndDates_strictMono_witness :
    List.Chain' (fun a b : Int × JSDate => a.1 < b.1 ∧ a.2.time < b.2.time)
      (sampleLocation [10800000, 21600000]).offsetAndDates :=
  offsetAndDates_strictMono (sampleLocation [10800000, 21600000])
    (by
      rw [show (sampleLocation [10800000, 21600000]).flatForecasts =
        [sampleDetailedForecast 10800000, sampleDetailedForecast 21600000]
        from by decide]
      exact List.chain'_pair.mpr (by decide))

/-- The first component of `groupStep`: push onto the last bucket when the
day of week is unchanged, append a fresh singleton bucket otherwise. -/
theorem groupStep_fst {α : Type} (acc : List (Bucket α) × Option Nat)
    (x : α × Int × JSDate) :
    (groupStep acc x).1 =
      if acc.2 = some x.2.2.day then pushLast acc.1 (x.1, x.2.1)
      else acc.1 ++ [([(x.1, x.2.1)], x.2.2)] := rfl

/-- The second component of `groupStep`: `lastDay` becomes the current
triple's day of week. -/
theorem groupStep_snd {α : Type} (acc : List (Bucket α) × Option Nat)
    (x : α × Int × JSDate) : (groupStep acc x).2 = some x.2.2.day := rfl

/-- Pushing onto the last bucket of a non-empty bucket list appends the pair
to that bucket and leaves the rest unchanged. -/
theorem pushLast_snoc {α : Type} (bs : List (Bucket α)) (b : Bucket α)
    (p : α × Int) : pushLast (bs ++ [b]) p = bs ++ [(b.1 ++ [p], b.2)] := by
  induction bs with
  | nil => rfl
  | cons x xs ih =>
    cases hxs : xs ++ [b] with
    | nil => exact absurd hxs (by simp)
    | cons y ys =>
      simp only [List.cons_append, hxs, pushLast]
      rw [← hxs, ih]

/-- Pushing with `pushLast` keeps a non-empty bucket list non-empty. -/
theorem pushLast_ne_nil {α : Type} {l : List (Bucket α)} (h : l ≠ [])
    (p : α × Int) : pushLast l p ≠ [] := by
  match l, h with
  | [b], _ => simp [pushLast]
  | b :: b2 :: bs, _ => simp [pushLast]

/-- Every bucket of `pushLast l p` is a bucket of `l`, or the last bucket of
`l` with `p` appended. -/
theorem mem_pushLast {α : Type} {p : α × Int} {b : Bucket α} :
    ∀ {l : List (Bucket α)}, b ∈ pushLast l p →
      b ∈ l ∨ ∃ c ∈ l, b = (c.1 ++ [p], c.2)
  | [], hb => by simp [pushLast] at hb
  | [x], hb => by
    simp [pushLast] at hb
    exact Or.inr ⟨x, by simp, by simp [hb]⟩
  | x :: y :: ys, hb => by
    simp only [pushLast, List.mem_cons] at hb
    rcases hb with rfl | hb
    · exact Or.inl (List.mem_cons_self _ _)
    · rcases mem_pushLast hb with h | ⟨c, hc, rfl⟩
      · exact Or.inl (List.mem_cons_of_mem _ h)
      · exact Or.inr ⟨c, List.mem_cons_of_mem _ hc, rfl⟩

/-- The flattening of a bucket list: all its `(selector, hourOffset)` pairs
in order. -/
def bucketsFlatten {α : Type} (bs : List (Bucket α)) : List (α × Int) :=
  (bs.map Prod.fst).flatten

/-- Flattening after `pushLast` on a non-empty bucket list appends the pushed
pair at the end. -/
theorem bucketsFlatten_pushLast {α : Type} {l : List (Bucket α)} (h : l ≠ [])
    (p : α × Int) : bucketsFlatten (pushLast l p) = bucketsFlatten l ++ [p] := by
  rcases List.eq_nil_or_concat l with rfl | ⟨L, b, rfl⟩
  · exact absurd rfl h
  · rw [List.concat_eq_append, pushLast_snoc]
    simp [bucketsFlatten, List.flatten_append]

/-- One `groupStep` appends exactly the incoming pair to the flattening,
provided the loop invariant (`lastDay` set implies a non-empty bucket list)
holds. -/
theorem groupStep_flatten {α : Type} (acc : List (Bucket α) × Option Nat)
    (x : α × Int × JSDate) (hinv : acc.2 ≠ none → acc.1 ≠ []) :
    bucketsFlatten ((groupStep acc x).1) =
      bucketsFlatten acc.1 ++ [(x.1, x.2.1)] := by
  rw [groupStep_fst]
  split_ifs with hc
  · exact bucketsFlatten_pushLast (hinv (by rw [hc]; simp)) _
  · simp [bucketsFlatten, List.flatten_append]

/-- One `groupStep` preserves the loop invariant: the resulting bucket list
is non-empty. -/
theorem groupStep_ne_nil {α : Type} (acc : List (Bucket α) × Option Nat)
    (x : α × Int × JSDate) (hinv : acc.2 ≠ none → acc.1 ≠ []) :
    (groupStep acc x).1 ≠ [] := by
  rw [groupStep_fst]
  split_ifs with hc
  · exact pushLast_ne_nil (hinv (by rw [hc]; simp)) _
  · simp

/-- Over any run of the grouping loop, the final flattening is the initial
one followed by the projections of all processed triples, in order. -/
theorem groupFold_flatten {α : Type} :
    ∀ (xs : List (α × Int × JSDate)) (acc : List (Bucket α) × Option Nat),
      (acc.2 ≠ none → acc.1 ≠ []) →
      bucketsFlatten ((xs.foldl groupStep acc).1) =
        bucketsFlatten acc.1 ++ xs.map (fun t => (t.1, t.2.1))
  | [], acc, hinv => by simp
  | x :: xs, acc, hinv => by
    rw [List.foldl_cons,
      groupFold_flatten xs (groupStep acc x)
        (fun _ => groupStep_ne_nil acc x hinv),
      groupStep_flatten acc x hinv]
    simp

/-- Over any run of the grouping loop, all buckets stay non-empty. -/
theorem groupFold_nonempty {α : Type} :
    ∀ (xs : List (α × Int × JSDate)) (acc : List (Bucket α) × Option Nat),
      (∀ b ∈ acc.1, b.1 ≠ []) →
      ∀ b ∈ (xs.foldl groupStep acc).1, b.1 ≠ []
  | [], acc, hacc => by simpa using hacc
  | x :: xs, acc, hacc => by
    rw [List.foldl_cons]
    refine groupFold_nonempty xs (groupStep acc x) ?_
    intro b hb
    rw [groupStep_fst] at hb
    split_ifs at hb with hc
    · rcases mem_pushLast hb with h | ⟨c, _, rfl⟩
      · exact hacc b h
      · simp
    · rcases List.mem_append.mp hb with h | h
      · exact hacc b h
      · simp only [List.mem_singleton] at h
        subst h
        simp

/-- The `lastDay` state after processing a non-empty list of triples is the
day of week of the last triple. -/
theorem groupFold_lastDay {α : Type} :
    ∀ (xs : List (α × Int × JSDate)) (acc : List (Bucket α) × Option Nat)
      (last : α × Int × JSDate), xs.getLast? = some last →
      (xs.foldl groupStep acc).2 = some last.2.2.day
  | [], _, _, h => by simp at h
  | [x], acc, last, h => by
    simp only [List.getLast?_singleton, Option.some.injEq] at h
    subst h
    rfl
  | x :: y :: ys, acc, last, h => by
    rw [List.getLast?_cons_cons] at h
    rw [List.foldl_cons]
    exact groupFold_lastDay (y :: ys) (groupStep acc x) last h

/-- Claim C2: for every input sequence of `(selector, hourOffset, date)`
triples (in particular every chronologically ordered one), the grouping of
`periodSelectorsByDay` starts with a singleton bucket, appends a triple to
the current (last) bucket exactly when its date's day of week equals the
previous triple's and otherwise starts a new bucket, and the buckets
partition the input: their concatenation is the input sequence of
`(selector, hourOffset)` pairs — nothing dropped or duplicated, order
preserved — and every bucket is non-empty. -/
theorem periodSelectorsByDay_partition {α : Type} :
    (∀ t : α × Int × JSDate,
      periodSelectorsByDay [t] = [([(t.1, t.2.1)], t.2.2)]) ∧
    (∀ (bs : List (Bucket α)) (b : Bucket α) (p : α × Int),
      pushLast (bs ++ [b]) p = bs ++ [(b.1 ++ [p], b.2)]) ∧
    (∀ (xs : List (α × Int × JSDate)) (t last : α × Int × JSDate),
      xs.getLast? = some last →
      periodSelectorsByDay (xs ++ [t]) =
        if last.2.2.day = t.2.2.day then
          pushLast (periodSelectorsByDay xs) (t.1, t.2.1)
        else periodSelectorsByDay xs ++ [([(t.1, t.2.1)], t.2.2)]) ∧
    (∀ xs : List (α × Int × JSDate),
      bucketsFlatten (periodSelectorsByDay xs) =
        xs.map fun t => (t.1, t.2.1)) ∧
    (∀ (xs : List (α × Int × JSDate)) (b : Bucket α),
      b ∈ periodSelectorsByDay xs → b.1 ≠ []) := by
  refine ⟨fun t => rfl, pushLast_snoc, fun xs t last h => ?_, fun xs => ?_,
    fun xs => groupFold_nonempty xs ([], none) (by simp)⟩
  · rw [periodSelectorsByDay, List.foldl_concat, groupStep_fst,
      groupFold_lastDay xs ([], none) last h]
    simp only [Option.some.injEq]
    rfl
  · have := groupFold_flatten xs ([], none) (by simp)
    rw [periodSelectorsByDay, this]
    simp [bucketsFlatten]

/-- Witness for C2: appending a second Monday triple to a single Monday
triple pushes it onto the existing bucket (the `if` takes the same-day
branch). -/
theorem periodSelectorsByDay_partition_witness :
    periodSelectorsByDay
        ([((0 : Nat), (3 : Int), ({ time := 0, day := 1 } : JSDate))] ++
          [(1, 6, { time := 1, day := 1 })]) =
      if ({ time := 0, day := 1 } : JSDate).day =
          ({ time := 1, day := 1 } : JSDate).day then
        pushLast
          (periodSelectorsByDay
            [((0 : Nat), (3 : Int), ({ time := 0, day := 1 } : JSDate))])
          (1, 6)
      else
        periodSelectorsByDay
          [((0 : Nat), (3 : Int), ({ time := 0, day := 1 } : JSDate))] ++
          [([(1, 6)], { time := 1, day := 1 })] :=
  periodSelectorsByDay_partition.2.2.1
    [((0 : Nat), (3 : Int), ({ time := 0, day := 1 } : JSDate))]
    (1, 6, { time := 1, day := 1 })
    (0, 3, { time := 0, day := 1 }) rfl

/-- The example input of the day-grouping property: periods with day-of-week
sequence `[Mon, Mon, Mon, Tue, Tue, Tue, Tue]` (JavaScript `getDay()`:
Monday = 1, Tuesday = 2), with distinct times and 3-hourly offsets. -/
def weekTriples : List (Nat × Int × JSDate) :=
  [(0, 3, { time := 0, day := 1 }), (1, 6, { time := 1, day := 1 }),
    (2, 9, { time := 2, day := 1 }), (3, 12, { time := 3, day := 2 }),
    (4, 15, { time := 4, day := 2 }), (5, 18, { time := 5, day := 2 }),
    (6, 21, { time := 6, day := 2 })]

/-- Claim C6: a day bucket produced by the grouping receives the
human-readable date label iff its length equals the run's `periodsPerDay`;
any other length renders the blank label.  With `periodsPerDay = 3` and
day-of-week sequence `[Mon, Mon, Mon, Tue, Tue, Tue, Tue]`, grouping yields
buckets of sizes `3` and `4`, and only the size-3 bucket is labelled. -/
theorem dayLabel_full_iff :
    (∀ (α : Type) (xs : List (α × Int × JSDate)) (periodsPerDay : Nat)
      (b : Bucket α), b ∈ periodSelectorsByDay xs →
      (dayLabelOf b.1 b.2 periodsPerDay = DayLabel.dateLabel b.2 ↔
        b.1.length = periodsPerDay)) ∧
    (periodSelectorsByDay weekTriples).map (fun b => b.1.length) = [3, 4] ∧
    dayLabels weekTriples 3 =
      [DayLabel.dateLabel { time := 0, day := 1 }, DayLabel.blank] := by
  refine ⟨fun α xs periodsPerDay b _ => ?_, by decide, by decide⟩
  rw [dayLabelOf]
  split_ifs with hlen
  · simp [hlen]
  · simp [hlen]

/-- Witness for C6: the size-3 Monday bucket of the example is in the
grouping's output, and it is labelled iff its length is `3` — which it is. -/
theorem dayLabel_full_iff_witness :
    dayLabelOf [((0 : Nat), (3 : Int)), (1, 6), (2, 9)]
        ({ time := 0, day := 1 } : JSDate) 3 =
      DayLabel.dateLabel { time := 0, day := 1 } ↔
      ([((0 : Nat), (3 : Int)), (1, 6), (2, 9)] : List (Nat × Int)).length = 3 :=
  dayLabel_full_iff.1 Nat weekTriples 3
    ([(0, 3), (1, 6), (2, 9)], { time := 0, day := 1 }) (by decide)

/-- Inversion of an `Except` bind that succeeded. -/
theorem bind_eq_ok {γ δ : Type} {e : Except DecodeError γ}
    {k : γ → Except DecodeError δ} {d : δ} :
    (e >>= k) = Except.ok d ↔ ∃ x, e = Except.ok x ∧ k x = Except.ok d := by
  cases e <;> simp [Bind.bind, Except.bind]

/-- Reading with `req` succeeds exactly on a present field, and returns that field. -/
theorem req_eq_ok {γ : Type} {o : Option γ} {x : γ} :
    req o = Except.ok x ↔ o = some x := by
  cases o <;> simp [req]

/-- Decoding with `mapDecode` succeeds exactly when every element decodes, for any
per-element success criterion `g`. -/
theorem mapDecode_ok_iff {γ δ : Type} (f : γ → Except DecodeError δ)
    (g : γ → Bool) (hf : ∀ a, (∃ b, f a = Except.ok b) ↔ g a = true) :
    ∀ xs : List γ, (∃ ys, mapDecode f xs = Except.ok ys) ↔ xs.all g = true
  | [] => by simp [mapDecode]
  | x :: xs => by
    have ih := mapDecode_ok_iff f g hf xs
    rw [List.all_cons, Bool.and_eq_true, ← hf, ← ih]
    cases hfx : f x with
    | error e =>
      simp only [mapDecode, hfx]
      constructor
      · rintro ⟨ys, hys⟩
        exact absurd hys (by simp)
      · rintro ⟨⟨b, hb⟩, _⟩
        exact absurd hb (by simp)
    | ok y =>
      cases hrest : mapDecode f xs with
      | error e =>
        simp only [mapDecode, hfx, hrest]
        constructor
        · rintro ⟨ys, hys⟩
          exact absurd hys (by simp)
        · rintro ⟨_, ys, hys⟩
          exact absurd hys (by simp)
      | ok ys =>
        simp only [mapDecode, hfx, hrest]
        exact ⟨fun _ => ⟨⟨y, rfl⟩, ⟨ys, rfl⟩⟩, fun _ => ⟨y :: ys, rfl⟩⟩

/-- Decoding with `mapDecode` preserves list length on success. -/
theorem mapDecode_length {γ δ : Type} {f : γ → Except DecodeError δ} :
    ∀ {xs : List γ} {ys : List δ}, mapDecode f xs = Except.ok ys →
      ys.length = xs.length
  | [], ys, h => by
    simp only [mapDecode, Except.ok.injEq] at h
    simp [← h]
  | x :: xs, ys, h => by
    simp only [mapDecode] at h
    cases hfx : f x with
    | error e =>
      rw [hfx] at h
      exact absurd h (by simp)
    | ok y =>
      rw [hfx] at h
      cases hrest : mapDecode f xs with
      | error e =>
        rw [hrest] at h
        exact absurd h (by simp)
      | ok zs =>
        rw [hrest] at h
        simp only [Except.ok.injEq] at h
        subst h
        simp [mapDecode_length hrest]

/-- A raw wind entry decodes exactly when both components are present. -/
theorem decodeWindEntry_ok (raw : RawWindEntry) :
    (∃ w, decodeWindEntry raw = Except.ok w) ↔ rawWindOk raw = true := by
  rcases raw with ⟨u, v⟩
  cases u <;> cases v <;>
    simp [decodeWindEntry, rawWindOk, req, Bind.bind, Except.bind]

/-- A raw above-ground entry decodes exactly when all six fields are
present. -/
theorem decodeAboveGroundEntry_ok (raw : RawAboveGroundEntry) :
    (∃ b, decodeAboveGroundEntry raw = Except.ok b) ↔
      rawAboveGroundOk raw = true := by
  rcases raw with ⟨h, t, dt, u, v, c⟩
  cases h <;> cases t <;> cases dt <;> cases u <;> cases v <;> cases c <;>
    simp [decodeAboveGroundEntry, rawAboveGroundOk, req, Bind.bind, Except.bind]

/-- The 5-tuple of winds decodes exactly when at least five entries were
decoded. -/
theorem decodeWinds_ok (ws : List Wind) :
    (∃ w, decodeWinds ws = Except.ok w) ↔ 5 ≤ ws.length := by
  match ws with
  | [] => simp [decodeWinds]
  | [_] => simp [decodeWinds]
  | [_, _] => simp [decodeWinds]
  | [_, _, _] => simp [decodeWinds]
  | [_, _, _, _] => simp [decodeWinds]
  | w0 :: w1 :: w2 :: w3 :: w4 :: rest =>
    simp only [decodeWinds, List.length_cons]
    constructor
    · intro _
      omega
    · intro _
      exact ⟨_, rfl⟩

/-- The all-scalar-fields-present case of `decodeDetailedForecast_ok`: with
every scalar required field present, decoding succeeds exactly when the
profile entries and wind entries all decode and the wind array is long
enough. -/
theorem decodeDetailedForecast_ok_present (elevation : ℚ) (tv : JSDate)
    (xcv : ℚ) (xcf : Option ℚ) (blhv bluv blvv : ℚ) (blc : Option (ℚ × ℚ))
    (vv : ℚ) (pv : List RawAboveGroundEntry) (stv sdtv suv svv rtv rcv : ℚ)
    (msletv cv : ℚ) (iso : Option ℚ) (wv : List RawWindEntry) :
    (∃ d, decodeDetailedForecast
        { t := some tv, xc := some xcv, xcf := xcf
          bl := some { h := some blhv, u := some bluv, v := some blvv, c := blc }
          v := some vv, p := some pv
          s := some { t := some stv, dt := some sdtv, u := some suv, v := some svv }
          iso := iso, r := some { t := some rtv, c := some rcv }
          mslet := some msletv, c := some cv, w := some wv } elevation =
        Except.ok d) ↔
      rawDetailedOk
        { t := some tv, xc := some xcv, xcf := xcf
          bl := some { h := some blhv, u := some bluv, v := some blvv, c := blc }
          v := some vv, p := some pv
          s := some { t := some stv, dt := some sdtv, u := some suv, v := some svv }
          iso := iso, r := some { t := some rtv, c := some rcv }
          mslet := some msletv, c := some cv, w := some wv } = true := by
  cases hp : mapDecode decodeAboveGroundEntry pv with
  | error e =>
    cases hb : pv.all rawAboveGroundOk with
    | true =>
      obtain ⟨ys, hys⟩ :=
        (mapDecode_ok_iff decodeAboveGroundEntry rawAboveGroundOk
          decodeAboveGroundEntry_ok pv).mpr hb
      rw [hp] at hys
      exact absurd hys (by simp)
    | false =>
      simp [decodeDetailedForecast, rawDetailedOk, req, Bind.bind,
        Except.bind, hp, hb]
  | ok ys =>
    have hpall : pv.all rawAboveGroundOk = true :=
      (mapDecode_ok_iff decodeAboveGroundEntry rawAboveGroundOk
        decodeAboveGroundEntry_ok pv).mp ⟨ys, hp⟩
    cases hw : mapDecode decodeWindEntry wv with
    | error e =>
      cases hb : wv.all rawWindOk with
      | true =>
        obtain ⟨zs, hzs⟩ :=
          (mapDecode_ok_iff decodeWindEntry rawWindOk decodeWindEntry_ok
            wv).mpr hb
        rw [hw] at hzs
        exact absurd hzs (by simp)
      | false =>
        simp [decodeDetailedForecast, rawDetailedOk, req, Bind.bind,
          Except.bind, hp, hw, hb]
    | ok zs =>
      have hwall : wv.all rawWindOk = true :=
        (mapDecode_ok_iff decodeWindEntry rawWindOk decodeWindEntry_ok
          wv).mp ⟨zs, hw⟩
      have hzlen : zs.length = wv.length := mapDecode_length hw
      cases h5 : decodeWinds zs with
      | error e =>
        have hlt : ¬ 5 ≤ zs.length := by
          intro hge
          obtain ⟨wd, hwd⟩ := (decodeWinds_ok zs).mpr hge
          rw [h5] at hwd
          exact absurd hwd (by simp)
        have hdec : decide (5 ≤ wv.length) = false := by
          rw [decide_eq_false_iff_not]
          omega
        simp [decodeDetailedForecast, rawDetailedOk, req, Bind.bind,
          Except.bind, hp, hw, h5, hpall, hwall, hdec]
      | ok wd =>
        have h5l : 5 ≤ zs.length := (decodeWinds_ok zs).mp ⟨wd, h5⟩
        have hdec : decide (5 ≤ wv.length) = true := by
          rw [decide_eq_true_eq]
          omega
        simp [decodeDetailedForecast, rawDetailedOk, req, Bind.bind,
          Except.bind, hp, hw, h5, hpall, hwall, hdec]

/-- A raw hour-record decodes exactly when all its required fields are
present (and the wind array has its five entries); the optional `xcf`, `iso`
and `bl.c` never block decoding. -/
theorem decodeDetailedForecast_ok (elevation : ℚ) :
    ∀ raw : RawDetailedForecastData,
      (∃ d, decodeDetailedForecast raw elevation = Except.ok d) ↔
        rawDetailedOk raw = true := by
  rintro ⟨t, xc, xcf, bl, v, p, s, iso, r, mslet, c, w⟩
  cases t with
  | none =>
    simp [decodeDetailedForecast, rawDetailedOk, req, Bind.bind, Except.bind]
  | some tv =>
    cases xc with
    | none =>
      simp [decodeDetailedForecast, rawDetailedOk, req, Bind.bind, Except.bind]
    | some xcv =>
      cases bl with
      | none =>
        simp [decodeDetailedForecast, rawDetailedOk, req, Bind.bind,
          Except.bind]
      | some blv =>
        rcases blv with ⟨blh, blu, blvc, blc⟩
        cases blh with
        | none =>
          simp [decodeDetailedForecast, rawDetailedOk, req, Bind.bind,
            Except.bind]
        | some blhv =>
          cases blu with
          | none =>
            simp [decodeDetailedForecast, rawDetailedOk, req, Bind.bind,
              Except.bind]
          | some bluv =>
            cases blvc with
            | none =>
              simp [decodeDetailedForecast, rawDetailedOk, req, Bind.bind,
                Except.bind]
            | some blvv =>
              cases v with
              | none =>
                simp [decodeDetailedForecast, rawDetailedOk, req, Bind.bind,
                  Except.bind]
              | some vv =>
                cases p with
                | none =>
                  simp [decodeDetailedForecast, rawDetailedOk, req,
                    Bind.bind, Except.bind]
                | some pv =>
                  cases s with
                  | none =>
                    cases hmp : mapDecode decodeAboveGroundEntry pv <;>
                      simp [decodeDetailedForecast, rawDetailedOk, req,
                        Bind.bind, Except.bind, hmp]
                  | some sv =>
                    rcases sv with ⟨st, sdt, su, svc⟩
                    cases st with
                    | none =>
                      cases hmp : mapDecode decodeAboveGroundEntry pv <;>
                        simp [decodeDetailedForecast, rawDetailedOk, req,
                          Bind.bind, Except.bind, hmp]
                    | some stv =>
                      cases sdt with
                      | none =>
                        cases hmp : mapDecode decodeAboveGroundEntry pv <;>
                          simp [decodeDetailedForecast, rawDetailedOk, req,
                            Bind.bind, Except.bind, hmp]
                      | some sdtv =>
                        cases su with
                        | none =>
                          cases hmp : mapDecode decodeAboveGroundEntry pv <;>
                            simp [decodeDetailedForecast, rawDetailedOk, req,
                              Bind.bind, Except.bind, hmp]
                        | some suv =>
                          cases svc with
                          | none =>
                            cases hmp : mapDecode decodeAboveGroundEntry pv <;>
                              simp [decodeDetailedForecast, rawDetailedOk,
                                req, Bind.bind, Except.bind, hmp]
                          | some svv =>
                            cases r with
                            | none =>
                              cases hmp : mapDecode decodeAboveGroundEntry pv <;>
                                simp [decodeDetailedForecast, rawDetailedOk,
                                  req, Bind.bind, Except.bind, hmp]
                            | some rv =>
                              rcases rv with ⟨rt, rc⟩
                              cases rt with
                              | none =>
                                cases hmp : mapDecode decodeAboveGroundEntry pv <;>
                                  simp [decodeDetailedForecast, rawDetailedOk,
                                    req, Bind.bind, Except.bind, hmp]
                              | some rtv =>
                                cases rc with
                                | none =>
                                  cases hmp : mapDecode decodeAboveGroundEntry pv <;>
                                    simp [decodeDetailedForecast,
                                      rawDetailedOk, req, Bind.bind,
                                      Except.bind, hmp]
                                | some rcv =>
                                  cases mslet with
                                  | none =>
                                    cases hmp : mapDecode decodeAboveGroundEntry pv <;>
                                      simp [decodeDetailedForecast,
                                        rawDetailedOk, req, Bind.bind,
                                        Except.bind, hmp]
                                  | some msletv =>
                                    cases c with
                                    | none =>
                                      cases hmp : mapDecode decodeAboveGroundEntry pv <;>
                                        simp [decodeDetailedForecast,
                                          rawDetailedOk, req, Bind.bind,
                                          Except.bind, hmp]
                                    | some cv =>
                                      cases w with
                                      | none =>
                                        cases hmp : mapDecode decodeAboveGroundEntry pv <;>
                                          simp [decodeDetailedForecast,
                                            rawDetailedOk, req, Bind.bind,
                                            Except.bind, hmp]
                                      | some wv =>
                                        exact decodeDetailedForecast_ok_present
                                          elevation tv xcv xcf blhv bluv blvv
                                          blc vv pv stv sdtv suv svv rtv rcv
                                          msletv cv iso wv

/-- A raw day-record decodes exactly when all its required fields are
present. -/
theorem decodeDayForecasts_ok (elevation : ℚ) :
    ∀ raw : RawDayForecastsData,
      (∃ day, decodeDayForecasts raw elevation = Except.ok day) ↔
        rawDayOk raw = true := by
  rintro ⟨th, h⟩
  cases th with
  | none =>
    simp [decodeDayForecasts, rawDayOk, req, Bind.bind, Except.bind]
  | some thv =>
    cases h with
    | none =>
      simp [decodeDayForecasts, rawDayOk, req, Bind.bind, Except.bind]
    | some hs =>
      cases hm : mapDecode (fun d => decodeDetailedForecast d elevation) hs with
      | error e =>
        cases hb : hs.all rawDetailedOk with
        | true =>
          obtain ⟨ys, hys⟩ :=
            (mapDecode_ok_iff (fun d => decodeDetailedForecast d elevation)
              rawDetailedOk (decodeDetailedForecast_ok elevation) hs).mpr hb
          rw [hm] at hys
          exact absurd hys (by simp)
        | false =>
          simp [decodeDayForecasts, rawDayOk, req, Bind.bind, Except.bind,
            hm, hb]
      | ok ys =>
        have hall : hs.all rawDetailedOk = true :=
          (mapDecode_ok_iff (fun d => decodeDetailedForecast d elevation)
            rawDetailedOk (decodeDetailedForecast_ok elevation) hs).mp ⟨ys, hm⟩
        simp [decodeDayForecasts, rawDayOk, req, Bind.bind, Except.bind,
          hm, hall]

/-- A raw location record decodes exactly when all its required fields are
present. -/
theorem decodeLocationForecasts_ok (firstTimeStep : JSDate) :
    ∀ raw : RawLocationForecastsData,
      (∃ lf, decodeLocationForecasts raw firstTimeStep = Except.ok lf) ↔
        rawLocationOk raw = true := by
  rintro ⟨h, d⟩
  cases h with
  | none =>
    simp [decodeLocationForecasts, rawLocationOk, req, Bind.bind, Except.bind]
  | some hv =>
    cases d with
    | none =>
      simp [decodeLocationForecasts, rawLocationOk, req, Bind.bind,
        Except.bind]
    | some ds =>
      cases hm : mapDecode (fun x => decodeDayForecasts x hv) ds with
      | error e =>
        cases hb : ds.all rawDayOk with
        | true =>
          obtain ⟨ys, hys⟩ :=
            (mapDecode_ok_iff (fun x => decodeDayForecasts x hv) rawDayOk
              (decodeDayForecasts_ok hv) ds).mpr hb
          rw [hm] at hys
          exact absurd hys (by simp)
        | false =>
          simp [decodeLocationForecasts, rawLocationOk, req, Bind.bind,
            Except.bind, hm, hb]
      | ok ys =>
        have hall : ds.all rawDayOk = true :=
          (mapDecode_ok_iff (fun x => decodeDayForecasts x hv) rawDayOk
            (decodeDayForecasts_ok hv) ds).mp ⟨ys, hm⟩
        simp [decodeLocationForecasts, rawLocationOk, req, Bind.bind,
          Except.bind, hm, hall]

/-- Claim C1: decoding a raw record in which any required numeric field is
missing or malformed fails with a `DecodeError` instead of producing a
`LocationForecasts` (first two conjuncts: failure exactly when a required
field is absent), and the decoder never synthesizes a value for a required
field (last conjunct: on success, every required field of the result is the
corresponding field of the input, up to the constructor's fixed scalings
`v / 10` and `c / 100`). -/
theorem decode_requires_fields :
    (∀ (raw : RawLocationForecastsData) (firstTimeStep : JSDate),
      rawLocationOk raw = false →
      ∃ e, decodeLocationForecasts raw firstTimeStep = Except.error e) ∧
    (∀ (raw : RawLocationForecastsData) (firstTimeStep : JSDate)
      (lf : LocationForecasts),
      decodeLocationForecasts raw firstTimeStep = Except.ok lf →
      rawLocationOk raw = true) ∧
    (∀ (raw : RawDetailedForecastData) (elevation : ℚ) (d : DetailedForecast),
      decodeDetailedForecast raw elevation = Except.ok d →
      raw.t = some d.time ∧ raw.xc = some d.xcPotential ∧
      raw.v = some (d.thermalVelocity * 10) ∧
      raw.mslet = some d.meanSeaLevelPressure ∧
      raw.c = some (d.cloudCover * 100) ∧
      d.isothermZero = raw.iso ∧
      (∃ bl, raw.bl = some bl ∧ bl.h = some d.boundaryLayer.depth ∧
        bl.u = some d.boundaryLayer.wind.u ∧
        bl.v = some d.boundaryLayer.wind.v) ∧
      (∃ s, raw.s = some s ∧ s.t = some d.surface.temperature ∧
        s.dt = some d.surface.dewPoint ∧ s.u = some d.surface.wind.u ∧
        s.v = some d.surface.wind.v) ∧
      (∃ r, raw.r = some r ∧ r.t = some d.rain.total ∧
        r.c = some d.rain.convective)) := by
  refine ⟨fun raw firstTimeStep hmissing => ?_,
    fun raw firstTimeStep lf hok => ?_,
    fun raw elevation d hd => ?_⟩
  · cases hres : decodeLocationForecasts raw firstTimeStep with
    | error e => exact ⟨e, rfl⟩
    | ok lf =>
      have := (decodeLocationForecasts_ok firstTimeStep raw).mp ⟨lf, hres⟩
      rw [this] at hmissing
      cases hmissing
  · exact (decodeLocationForecasts_ok firstTimeStep raw).mp ⟨lf, hok⟩
  · simp only [decodeDetailedForecast, bind_eq_ok, req_eq_ok,
      Except.ok.injEq] at hd
    obtain ⟨tv, ht, xcv, hxc, blv, hbl, blhv, hblh, bluv, hblu, blvv, hblv,
      vv, hv, pRawv, hpRaw, pv, hpm, srv, hsRaw, stv, hst, sdtv, hsdt, suv,
      hsu, svv, hsv, rrv, hrRaw, rtv, hrt, rcv, hrc, msletv, hmslet, cv, hc,
      wrv, hwRaw, wsv, hwm, windsv, hwinds, hrec⟩ := hd
    subst hrec
    refine ⟨ht, hxc, ?_, hmslet, ?_, rfl, ⟨blv, hbl, hblh, hblu, hblv⟩,
      ⟨srv, hsRaw, hst, hsdt, hsu, hsv⟩, ⟨rrv, hrRaw, hrt, hrc⟩⟩
    · show raw.v = some (vv / 10 * 10)
      rw [div_mul_cancel₀ vv (by norm_num : (10 : ℚ) ≠ 0)]
      exact hv
    · show raw.c = some (cv / 100 * 100)
      rw [div_mul_cancel₀ cv (by norm_num : (100 : ℚ) ≠ 0)]
      exact hc

/-- Witness for C1: a raw location record with both required fields missing
fails to decode. -/
theorem decode_requires_fields_witness :
    ∃ e, decodeLocationForecasts { h := none, d := none }
        { time := 0, day := 0 } = Except.error e :=
  decode_requires_fields.1 { h := none, d := none } { time := 0, day := 0 }
    (by decide)
